/-
  Verification of PlantPipingSystemsManager.cc (EnergyPlus piping-systems core).

  Shallow embedding: the C++ routines named in each claim are translated into
  Lean definitions (Real64 becomes ℚ where the routine is pure arithmetic and
  comparisons, and ℝ where the routine calls transcendental functions), and the
  claims are settled as theorems about those definitions.
-/
import Mathlib

namespace PlantPipingSystems

/-! ## Mesh input reading (ReadGeneralDomainInputs, lines 770-784)

The SYMMETRICGEOMETRIC branch of the per-axis mesh-input block: an odd
RegionMeshCount is incremented by one and the user's geometric coefficient
(rNumericArgs) is stored, with a warning (ShowWarningError); an even count is
kept and the coefficient is set to 1.0.  No ShowFatalError occurs on this path. -/

structure MeshReadResult where
  regionMeshCount : ℕ
  geometricSeriesCoefficient : ℚ
  warningIssued : Bool
  fatalErrorIssued : Bool
  deriving Repr, DecidableEq

/-- Embedding of the SYMMETRICGEOMETRIC branch of the per-axis mesh input
block of `ReadGeneralDomainInputs` (PlantPipingSystemsManager.cc:770-784). -/
def readSymmetricGeometricMeshInput (requestedCount : ℕ) (userCoefficient : ℚ) :
    MeshReadResult :=
  if requestedCount % 2 ≠ 0 then
    { regionMeshCount := requestedCount + 1
      geometricSeriesCoefficient := userCoefficient
      warningIssued := true
      fatalErrorIssued := false }
  else
    { regionMeshCount := requestedCount
      geometricSeriesCoefficient := 1
      warningIssued := false
      fatalErrorIssued := false }

/-! ## Cell width generation (GetCellWidths, lines 6360-6462) -/

/-- Embedding of the geometric-series half of the SymmetricGeometric branch of
`GetCellWidths`: RetVal(0) = w, then CellWidth *= c at each step
(PlantPipingSystemsManager.cc:6447-6451). -/
def geometricHalfWidths (c : ℚ) : ℚ → ℕ → List ℚ
  | _, 0 => []
  | w, k + 1 => w :: geometricHalfWidths c (w * c) k

/-- Embedding of the MeshDistribution_SymmetricGeometric branch of
`GetCellWidths` (PlantPipingSystemsManager.cc:6433-6457): half the cells form a
geometric series from the region Min side, the other half mirror them. -/
def getCellWidthsSymmetricGeometric (regionMeshCount : ℕ)
    (geometricSeriesCoefficient : ℚ) (gMin gMax : ℚ) : List ℚ :=
  let gridWidth := gMax - gMin
  let numCellsOnEachSide := regionMeshCount / 2
  let summationTerm : ℚ :=
    (List.range numCellsOnEachSide).foldl
      (fun acc i => acc + geometricSeriesCoefficient ^ i) 0
  let cellWidth := (gridWidth / 2) / summationTerm
  let half := geometricHalfWidths geometricSeriesCoefficient cellWidth
      numCellsOnEachSide
  half ++ half.reverse

/-- Embedding of the MeshDistribution_Uniform branch of `GetCellWidths`
(PlantPipingSystemsManager.cc:6422-6431). -/
def getCellWidthsUniform (regionMeshCount : ℕ) (gMin gMax : ℚ) : List ℚ :=
  List.replicate regionMeshCount ((gMax - gMin) / regionMeshCount)

/-! ## Soil freeze/thaw apparent volumetric heat capacity
(EvaluateSoilRhoCp, lines 9303-9399) -/

structure MoistureProps where
  theta_liq : ℚ
  theta_sat : ℚ
  deriving Repr, DecidableEq

/-- `rhoCp_soil_liq_1 = 1225000 / (1 - Theta_sat)` (line 9366). -/
def rhoCp_soil_liq_1 (m : MoistureProps) : ℚ := 1225000 / (1 - m.theta_sat)

/-- `Cp_transient = Lat_fus/0.4 + (0.5*CP_ice - (CP_liq+CP_ice)/2*0.1)/0.4`
with Lat_fus = 334000, CP_ice = 2066, CP_liq = 4180 (line 9371). -/
def cp_transient : ℚ :=
  334000 / (4/10) + ((5/10) * 2066 - (4180 + 2066) / 2 * (1/10)) / (4/10)

/-- `rhoCP_soil_liq` (line 9373); rho_liq = 1000, CP_liq = 4180. -/
def rhoCP_soil_liq (m : MoistureProps) : ℚ :=
  rhoCp_soil_liq_1 m * (1 - m.theta_sat) + 1000 * 4180 * m.theta_liq

/-- `rhoCP_soil_transient` (line 9374); Theta_ice = Theta_liq (line 9360). -/
def rhoCP_soil_transient (m : MoistureProps) : ℚ :=
  rhoCp_soil_liq_1 m * (1 - m.theta_sat) + ((1000 + 917) / 2) * cp_transient * m.theta_liq

/-- `rhoCP_soil_ice` (line 9375); rho_ice = 917, CP_ice = 2066. -/
def rhoCP_soil_ice (m : MoistureProps) : ℚ :=
  rhoCp_soil_liq_1 m * (1 - m.theta_sat) + 917 * 2066 * m.theta_liq

/-- Liquid-transition branch of `EvaluateSoilRhoCp` for
frzLiqTrans < CellTemp < frzAllLiq (line 9391). -/
def soilRhoCp_liquidTransition (m : MoistureProps) (cellTemp : ℚ) : ℚ :=
  rhoCp_soil_liq_1 m +
    (rhoCP_soil_transient m - rhoCP_soil_liq m) / (0 - (-1/10)) * (0 - cellTemp)

/-- Ice-transition branch of `EvaluateSoilRhoCp` for
frzAllIce < CellTemp < frzIceTrans (line 9395). -/
def soilRhoCp_iceTransition (m : MoistureProps) (cellTemp : ℚ) : ℚ :=
  rhoCP_soil_ice m +
    (rhoCP_soil_transient m - rhoCP_soil_ice m) / ((-4/10) - (-1/2)) * (cellTemp - (-1/2))

/-- Embedding of the temperature-dependent part of `EvaluateSoilRhoCp`
(PlantPipingSystemsManager.cc:9379-9397), with frzAllIce = -0.5,
frzIceTrans = -0.4, frzLiqTrans = -0.1, frzAllLiq = 0. -/
def evaluateSoilRhoCp (m : MoistureProps) (cellTemp : ℚ) : ℚ :=
  if cellTemp ≥ 0 then rhoCp_soil_liq_1 m
  else if cellTemp ≤ -1/2 then rhoCP_soil_ice m
  else if cellTemp < 0 ∧ cellTemp > -1/10 then soilRhoCp_liquidTransition m cellTemp
  else if cellTemp ≤ -1/10 ∧ cellTemp ≥ -4/10 then rhoCP_soil_transient m
  else soilRhoCp_iceTransition m cellTemp

/-! ## Helper lemmas -/

lemma geometricHalfWidths_one (w : ℚ) (k : ℕ) :
    geometricHalfWidths 1 w k = List.replicate k w := by
  induction k generalizing w with
  | zero => rfl
  | succ k ih =>
      simp only [geometricHalfWidths, mul_one, List.replicate_succ]
      rw [ih]

lemma foldl_pow_one (m : ℕ) :
    (List.range m).foldl (fun acc i => acc + (1 : ℚ) ^ i) 0 = m := by
  induction m with
  | zero => rfl
  | succ m ih =>
      rw [List.range_succ, List.foldl_append, ih]
      push_cast
      simp

/-- Claim C7: with the symmetric-geometric mesh distribution, an odd requested
mesh count is incremented by one to the next even value with a warning and no
fatal error, and an even requested count is left unchanged. -/
theorem C7_symmetricGeometric_parity (n : ℕ) (coeff : ℚ) :
    (n % 2 ≠ 0 →
      (readSymmetricGeometricMeshInput n coeff).regionMeshCount = n + 1 ∧
      (readSymmetricGeometricMeshInput n coeff).regionMeshCount % 2 = 0 ∧
      (readSymmetricGeometricMeshInput n coeff).warningIssued = true) ∧
    (n % 2 = 0 →
      (readSymmetricGeometricMeshInput n coeff).regionMeshCount = n ∧
      (readSymmetricGeometricMeshInput n coeff).warningIssued = false) ∧
    (readSymmetricGeometricMeshInput n coeff).fatalErrorIssued = false := by
  refine ⟨fun h => ?_, fun h => ?_, ?_⟩
  · refine ⟨by simp [readSymmetricGeometricMeshInput, h],
      by simp [readSymmetricGeometricMeshInput, h]; omega,
      by simp [readSymmetricGeometricMeshInput, h]⟩
  · have h2 : ¬ n % 2 ≠ 0 := by omega
    exact ⟨by simp [readSymmetricGeometricMeshInput, h2],
      by simp [readSymmetricGeometricMeshInput, h2]⟩
  · by_cases h : n % 2 ≠ 0 <;> simp [readSymmetricGeometricMeshInput, h]

/-- Witness for C7 at the concrete requested count 5 (yielding 6). -/
theorem C7_symmetricGeometric_parity_witness :
    (5 : ℕ) % 2 ≠ 0 ∧
    (readSymmetricGeometricMeshInput 5 (13/10)).regionMeshCount = 6 ∧
    (readSymmetricGeometricMeshInput 5 (13/10)).regionMeshCount % 2 = 0 ∧
    (readSymmetricGeometricMeshInput 5 (13/10)).warningIssued = true ∧
    (readSymmetricGeometricMeshInput 5 (13/10)).fatalErrorIssued = false := by
  have h := C7_symmetricGeometric_parity 5 (13/10)
  have h5 : (5 : ℕ) % 2 ≠ 0 := by decide
  exact ⟨h5, (h.1 h5).1, (h.1 h5).2.1, (h.1 h5).2.2, h.2.2⟩

/-- Claim C10: the user-supplied geometric coefficient is stored only when the
requested symmetric-geometric mesh count was odd; for an even requested count
the stored coefficient is 1.0, and the resulting symmetric-geometric cell
widths are uniform (all equal to span divided by count). -/
theorem C10_evenCount_coefficient_ignored (n : ℕ) (coeff : ℚ) (gMin gMax : ℚ) :
    (n % 2 ≠ 0 →
      (readSymmetricGeometricMeshInput n coeff).geometricSeriesCoefficient = coeff) ∧
    (n % 2 = 0 →
      (readSymmetricGeometricMeshInput n coeff).geometricSeriesCoefficient = 1 ∧
      getCellWidthsSymmetricGeometric
          (readSymmetricGeometricMeshInput n coeff).regionMeshCount
          (readSymmetricGeometricMeshInput n coeff).geometricSeriesCoefficient
          gMin gMax =
        List.replicate n ((gMax - gMin) / n)) := by
  constructor
  · intro h
    simp [readSymmetricGeometricMeshInput, h]
  · intro h
    have h2 : ¬ n % 2 ≠ 0 := by omega
    refine ⟨by simp [readSymmetricGeometricMeshInput, h2], ?_⟩
    simp only [readSymmetricGeometricMeshInput, if_neg h2]
    simp only [getCellWidthsSymmetricGeometric, foldl_pow_one, geometricHalfWidths_one,
      List.reverse_replicate, ← List.replicate_add]
    have hn : n / 2 + n / 2 = n := by omega
    rw [hn]
    congr 1
    rw [div_div]
    congr 1
    have : ((n / 2 : ℕ) : ℚ) * 2 = (n : ℚ) := by
      have hd : n / 2 * 2 = n := by omega
      exact_mod_cast congrArg (Nat.cast : ℕ → ℚ) hd
    linarith [this]

/-- Witness for C10 at requested count 4 on the axis interval from 0 to 2. -/
theorem C10_evenCount_coefficient_ignored_witness :
    (4 : ℕ) % 2 = 0 ∧
    (readSymmetricGeometricMeshInput 4 7).geometricSeriesCoefficient = 1 ∧
    getCellWidthsSymmetricGeometric
        (readSymmetricGeometricMeshInput 4 7).regionMeshCount
        (readSymmetricGeometricMeshInput 4 7).geometricSeriesCoefficient 0 2 =
      List.replicate 4 (((2 : ℚ) - 0) / ((4 : ℕ) : ℚ)) := by
  have h := (C10_evenCount_coefficient_ignored 4 7 0 2).2 (by decide)
  exact ⟨rfl, h.1, h.2⟩

/-- Claim C8 counterexample: with Theta_liq = Theta_sat = 0.5, the
liquid-transition blend evaluated at the -0.1 °C zone boundary differs from the
transient-plateau value that `evaluateSoilRhoCp` yields there, so the four-zone
apparent heat capacity is not continuous at every zone boundary. -/
theorem C8_counterexample :
    soilRhoCp_liquidTransition ⟨1/2, 1/2⟩ (-1/10) ≠
      evaluateSoilRhoCp ⟨1/2, 1/2⟩ (-1/10) := by
  norm_num [soilRhoCp_liquidTransition, evaluateSoilRhoCp, rhoCp_soil_liq_1,
    rhoCP_soil_transient, rhoCP_soil_liq, cp_transient]

/-- Claim C8 (amended): the piecewise apparent-heat-capacity zones match at the
0 °C, -0.4 °C and -0.5 °C boundaries; at the -0.1 °C boundary the
liquid-transition blend misses the transient plateau by exactly
rhoCp_soil_liq_1 - rhoCP_soil_liq (the blend is anchored at rhoCp_soil_liq_1
while its slope is computed from rhoCP_soil_liq), so values match there only
when those two quantities coincide. -/
theorem C8_soilRhoCp_zoneBoundaries (m : MoistureProps) :
    soilRhoCp_liquidTransition m 0 = rhoCp_soil_liq_1 m ∧
    soilRhoCp_liquidTransition m (-1/10) =
      rhoCP_soil_transient m + (rhoCp_soil_liq_1 m - rhoCP_soil_liq m) ∧
    soilRhoCp_iceTransition m (-4/10) = rhoCP_soil_transient m ∧
    soilRhoCp_iceTransition m (-1/2) = rhoCP_soil_ice m ∧
    evaluateSoilRhoCp m 0 = rhoCp_soil_liq_1 m ∧
    evaluateSoilRhoCp m (-1/10) = rhoCP_soil_transient m ∧
    evaluateSoilRhoCp m (-4/10) = rhoCP_soil_transient m ∧
    evaluateSoilRhoCp m (-1/2) = rhoCP_soil_ice m := by
  refine ⟨?_, ?_, ?_, ?_, ?_, ?_, ?_, ?_⟩
  · unfold soilRhoCp_liquidTransition; ring
  · unfold soilRhoCp_liquidTransition; ring
  · unfold soilRhoCp_iceTransition; ring
  · unfold soilRhoCp_iceTransition; ring
  · norm_num [evaluateSoilRhoCp]
  · norm_num [evaluateSoilRhoCp]
  · norm_num [evaluateSoilRhoCp]
  · norm_num [evaluateSoilRhoCp]

/-! ## Per-time-step outer iteration loop
(PerformIterationLoop lines 6468-6532, IsConverged_CurrentToPrevIteration
lines 3537-3550, DoEndOfIterationOperations lines 9250-9297,
ShiftTemperaturesForNewIteration lines 3683-3733,
CheckForOutOfRangeTemps lines 3781-3806) -/

structure CellState where
  temperature : ℚ
  temperature_PrevIteration : ℚ
  temperature_PrevTimeStep : ℚ
  deriving Repr, DecidableEq

structure SimControls where
  maxIterationsPerTS : ℕ
  convergence_CurrentToPrevIteration : ℚ
  maximumTemperatureLimit : ℚ
  minimumTemperatureLimit : ℚ
  deriving Repr, DecidableEq

/-- Embedding of `IsConverged_CurrentToPrevIteration`: LocalMax starts at 0,
takes the max over all cells of |Temperature - Temperature_PrevIteration|, and
the function returns LocalMax < Convergence_CurrentToPrevIteration
(PlantPipingSystemsManager.cc:3537-3549). -/
def isConverged_CurrentToPrevIteration (cells : List CellState) (tolerance : ℚ) :
    Bool :=
  (cells.foldl
      (fun localMax c =>
        max localMax |c.temperature - c.temperature_PrevIteration|) 0)
    < tolerance

/-- Embedding of `CheckForOutOfRangeTemps` (PlantPipingSystemsManager.cc:3781-3806). -/
def checkForOutOfRangeTemps (cells : List CellState) (maxLimit minLimit : ℚ) :
    Bool :=
  cells.any fun c => c.temperature > maxLimit || c.temperature < minLimit

/-- Embedding of the field-cell part of `ShiftTemperaturesForNewIteration`
(PlantPipingSystemsManager.cc:3707-3731): every cell's previous-iteration
temperature is overwritten with its current temperature. -/
def shiftTemperaturesForNewIteration (cells : List CellState) : List CellState :=
  cells.map fun c => { c with temperature_PrevIteration := c.temperature }

/-- One pass of the body of the outer iteration loop: the shift step followed
by the circuit/field updates, the latter abstracted as an arbitrary state
transformer `update` (PerformPipeCircuitSimulation and
PerformTemperatureFieldUpdate). -/
def iterationBody (update : List CellState → List CellState)
    (cells : List CellState) : List CellState :=
  update (shiftTemperaturesForNewIteration cells)

/-- Embedding of the iteration loop of `PerformIterationLoop`
(PlantPipingSystemsManager.cc:6509-6521) together with
`DoEndOfIterationOperations` (9250-9297): each iteration runs the body, then
sets Finished from the convergence check and terminates the whole run
(`ShowFatalError`, modelled as `Except.error`) if any temperature is out of
range; the loop breaks when Finished, and otherwise stops silently after
MaxIterationsPerTS iterations.  The returned pair is the final cell state and
the number of iterations executed. -/
def performIterationLoopAux (update : List CellState → List CellState)
    (ctrl : SimControls) :
    ℕ → ℕ → List CellState → Except Unit (List CellState × ℕ)
  | 0, itersDone, cells => Except.ok (cells, itersDone)
  | fuel + 1, itersDone, cells =>
      let next := iterationBody update cells
      let finished := isConverged_CurrentToPrevIteration next
        ctrl.convergence_CurrentToPrevIteration
      if checkForOutOfRangeTemps next ctrl.maximumTemperatureLimit
          ctrl.minimumTemperatureLimit then Except.error ()
      else if finished then Except.ok (next, itersDone + 1)
      else performIterationLoopAux update ctrl fuel (itersDone + 1) next

/-- The per-time-step iteration loop, entered with the full iteration budget
SimControls.MaxIterationsPerTS. -/
def performIterationLoop (update : List CellState → List CellState)
    (ctrl : SimControls) (cells : List CellState) :
    Except Unit (List CellState × ℕ) :=
  performIterationLoopAux update ctrl ctrl.maxIterationsPerTS 0 cells

lemma performIterationLoopAux_spec (update : List CellState → List CellState)
    (ctrl : SimControls) :
    ∀ (fuel itersDone : ℕ) (cells : List CellState),
      (∀ k, 1 ≤ k → k ≤ fuel →
        checkForOutOfRangeTemps ((iterationBody update)^[k] cells)
          ctrl.maximumTemperatureLimit ctrl.minimumTemperatureLimit = false) →
      ∃ n, n ≤ fuel ∧
        performIterationLoopAux update ctrl fuel itersDone cells =
          Except.ok ((iterationBody update)^[n] cells, itersDone + n) ∧
        (∀ k, 1 ≤ k → k < n →
          isConverged_CurrentToPrevIteration ((iterationBody update)^[k] cells)
            ctrl.convergence_CurrentToPrevIteration = false) ∧
        (n < fuel →
          isConverged_CurrentToPrevIteration ((iterationBody update)^[n] cells)
            ctrl.convergence_CurrentToPrevIteration = true) := by
  intro fuel
  induction fuel with
  | zero =>
      intro itersDone cells _
      exact ⟨0, le_rfl, rfl, fun k hk1 hk0 => absurd (lt_of_le_of_lt hk1 hk0)
        (by omega), fun h => absurd h (by omega)⟩
  | succ fuel ih =>
      intro itersDone cells hsafe
      have hsafe1 := hsafe 1 le_rfl (by omega)
      rw [Function.iterate_one] at hsafe1
      by_cases hconv : isConverged_CurrentToPrevIteration
          (iterationBody update cells)
          ctrl.convergence_CurrentToPrevIteration = true
      · refine ⟨1, by omega, ?_, ?_, ?_⟩
        · simp only [performIterationLoopAux, hsafe1, hconv, Function.iterate_one,
            Bool.false_eq_true, if_false, if_true]
        · intro k hk1 hk2; omega
        · intro _; rw [Function.iterate_one]; exact hconv
      · have hconv' : isConverged_CurrentToPrevIteration
            (iterationBody update cells)
            ctrl.convergence_CurrentToPrevIteration = false := by
          revert hconv
          cases isConverged_CurrentToPrevIteration (iterationBody update cells)
            ctrl.convergence_CurrentToPrevIteration <;> simp
        have hsafe' : ∀ k, 1 ≤ k → k ≤ fuel →
            checkForOutOfRangeTemps
              ((iterationBody update)^[k] (iterationBody update cells))
              ctrl.maximumTemperatureLimit ctrl.minimumTemperatureLimit = false := by
          intro k hk1 hk2
          rw [← Function.iterate_succ_apply]
          exact hsafe (k + 1) (by omega) (by omega)
        obtain ⟨n, hn_le, hn_eq, hn_nc, hn_c⟩ :=
          ih (itersDone + 1) (iterationBody update cells) hsafe'
        refine ⟨n + 1, by omega, ?_, ?_, ?_⟩
        · have hstep : performIterationLoopAux update ctrl (fuel + 1) itersDone
              cells =
              performIterationLoopAux update ctrl fuel (itersDone + 1)
                (iterationBody update cells) := by
            simp only [performIterationLoopAux, hsafe1, hconv',
              Bool.false_eq_true, if_false]
          rw [hstep, hn_eq, Function.iterate_succ_apply]
          have harith : itersDone + 1 + n = itersDone + (n + 1) := by omega
          rw [harith]
        · intro k hk1 hk2
          match k, hk1 with
          | 1, _ => rw [Function.iterate_one]; exact hconv'
          | k + 2, _ =>
              have := hn_nc (k + 1) (by omega) (by omega)
              rw [← Function.iterate_succ_apply] at this
              exact this
        · intro hlt
          have := hn_c (by omega)
          rw [← Function.iterate_succ_apply] at this
          exact this

/-- Claim C1: the outer per-time-step loop runs at most
SimControls.MaxIterationsPerTS iterations; as long as no out-of-range
temperature is produced it never signals an error (reaching the cap included,
in which case the last computed iterate is returned), and it exits early after
iteration n < cap exactly when the max-over-cells absolute difference between
current and previous-iteration temperature first drops strictly below
SimControls.Convergence_CurrentToPrevIteration. -/
theorem C1_performIterationLoop_spec (update : List CellState → List CellState)
    (ctrl : SimControls) (cells : List CellState)
    (hsafe : ∀ k, 1 ≤ k → k ≤ ctrl.maxIterationsPerTS →
      checkForOutOfRangeTemps ((iterationBody update)^[k] cells)
        ctrl.maximumTemperatureLimit ctrl.minimumTemperatureLimit = false) :
    ∃ n, n ≤ ctrl.maxIterationsPerTS ∧
      performIterationLoop update ctrl cells =
        Except.ok ((iterationBody update)^[n] cells, n) ∧
      (∀ k, 1 ≤ k → k < n →
        isConverged_CurrentToPrevIteration ((iterationBody update)^[k] cells)
          ctrl.convergence_CurrentToPrevIteration = false) ∧
      (n < ctrl.maxIterationsPerTS →
        isConverged_CurrentToPrevIteration ((iterationBody update)^[n] cells)
          ctrl.convergence_CurrentToPrevIteration = true) := by
  obtain ⟨n, h1, h2, h3, h4⟩ :=
    performIterationLoopAux_spec update ctrl ctrl.maxIterationsPerTS 0 cells hsafe
  rw [Nat.zero_add] at h2
  exact ⟨n, h1, h2, h3, h4⟩

/-- Witness for C1: a one-cell domain whose update always returns 10 °C
converges in the second iteration under a cap of 3. -/
theorem C1_performIterationLoop_spec_witness :
    (∀ k, 1 ≤ k → k ≤ 3 →
      checkForOutOfRangeTemps
        ((iterationBody (fun cs => cs.map fun c => { c with temperature := 10 }))^[k]
          [⟨0, 0, 0⟩])
        100 (-100) = false) ∧
    ∃ n, n ≤ 3 ∧
      performIterationLoop (fun cs => cs.map fun c => { c with temperature := 10 })
        ⟨3, 1/1000, 100, -100⟩ [⟨0, 0, 0⟩] =
        Except.ok
          (((iterationBody (fun cs => cs.map fun c => { c with temperature := 10 }))^[n]
            [⟨0, 0, 0⟩]), n) ∧
      (∀ k, 1 ≤ k → k < n →
        isConverged_CurrentToPrevIteration
          ((iterationBody (fun cs => cs.map fun c => { c with temperature := 10 }))^[k]
            [⟨0, 0, 0⟩]) (1/1000) = false) ∧
      (n < 3 →
        isConverged_CurrentToPrevIteration
          ((iterationBody (fun cs => cs.map fun c => { c with temperature := 10 }))^[n]
            [⟨0, 0, 0⟩]) (1/1000) = true) := by
  have hsafe : ∀ k, 1 ≤ k → k ≤ 3 →
      checkForOutOfRangeTemps
        ((iterationBody (fun cs => cs.map fun c => { c with temperature := 10 }))^[k]
          [⟨0, 0, 0⟩])
        100 (-100) = false := by
    intro k hk1 hk3
    interval_cases k <;> decide
  exact ⟨hsafe,
    C1_performIterationLoop_spec
      (fun cs => cs.map fun c => { c with temperature := 10 })
      ⟨3, 1/1000, 100, -100⟩ [⟨0, 0, 0⟩] hsafe⟩

/-! ## Adiabatic-wall cell temperature update
(EvaluateAdiabaticSurfaceTemperature, lines 7033-7119) -/

inductive NeighborDirection
  | PositiveY
  | NegativeY
  | PositiveX
  | NegativeX
  | PositiveZ
  | NegativeZ
  deriving Repr, DecidableEq

structure AdiabaticCellInfo where
  x_index : ℕ
  y_index : ℕ
  z_index : ℕ
  temperature_PrevTimeStep : ℚ
  beta : ℚ
  deriving Repr, DecidableEq

/-- One entry of the neighbor scan: the direction, and the NeighborTemp and
Resistance produced for it by `EvaluateNeighborCharacteristics`. -/
structure NeighborSample where
  direction : NeighborDirection
  neighborTemp : ℚ
  resistance : ℚ
  deriving Repr, DecidableEq

/-- The AdiabaticMultiplier selection of `EvaluateAdiabaticSurfaceTemperature`
(PlantPipingSystemsManager.cc:7089-7106): 2 on the one direction/face
combination that crosses the symmetry plane, otherwise 1.  `uboundY` and
`uboundZ` are the upper bounds of the domain cell array in Y and Z. -/
def adiabaticMultiplier (uboundY uboundZ : ℕ) (cell : AdiabaticCellInfo)
    (dir : NeighborDirection) : ℚ :=
  match dir with
  | .PositiveZ => if cell.z_index = 0 then 2 else 1
  | .NegativeZ => if cell.z_index = uboundZ then 2 else 1
  | .PositiveX => if cell.x_index = 0 then 2 else 1
  | .NegativeY => if cell.y_index = uboundY then 2 else 1
  | _ => 1

/-- Embedding of the accumulation loop of `EvaluateAdiabaticSurfaceTemperature`
(PlantPipingSystemsManager.cc:7075-7117): Numerator starts at
Temperature_PrevTimeStep, Denominator at 1, and for each neighbor direction the
code executes
`Numerator = AdiabaticMultiplier * Numerator + (Beta/Resistance) * NeighborTemp`
and
`Denominator = AdiabaticMultiplier * Denominator + (Beta/Resistance)`,
returning Numerator / Denominator. -/
def evaluateAdiabaticSurfaceTemperature (uboundY uboundZ : ℕ)
    (cell : AdiabaticCellInfo) (neighbors : List NeighborSample) : ℚ :=
  let nd := neighbors.foldl
    (fun (acc : ℚ × ℚ) nb =>
      let m := adiabaticMultiplier uboundY uboundZ cell nb.direction
      (m * acc.1 + cell.beta / nb.resistance * nb.neighborTemp,
        m * acc.2 + cell.beta / nb.resistance))
    (cell.temperature_PrevTimeStep, 1)
  nd.1 / nd.2

/-- Modelled from the spec: the claimed update form for adiabatic-wall cells —
the standard neighbor-sum (history term with coefficient 1 plus
Beta/Resistance neighbor terms) in which the ×2 adiabatic multiplier scales
only the numerator and denominator contribution of the matching direction. -/
def adiabaticSurfaceTemperature_specForm (uboundY uboundZ : ℕ)
    (cell : AdiabaticCellInfo) (neighbors : List NeighborSample) : ℚ :=
  let num := cell.temperature_PrevTimeStep +
    (neighbors.map fun nb =>
      adiabaticMultiplier uboundY uboundZ cell nb.direction *
        (cell.beta / nb.resistance) * nb.neighborTemp).sum
  let den := 1 +
    (neighbors.map fun nb =>
      adiabaticMultiplier uboundY uboundZ cell nb.direction *
        (cell.beta / nb.resistance)).sum
  num / den

/-- Claim C2 (code bug): for an adiabatic cell at Z_index = 0 with one +Z field
neighbor (Temperature_PrevTimeStep = 0, Beta = 1, Resistance = 1,
NeighborTemp = 1) the code multiplies the already-accumulated numerator and
denominator — i.e. the history term — by 2 and leaves the crossing direction's
own contribution unscaled, returning 1/3, whereas the claimed form (multiplier
on the matching direction's contribution only) yields 2/3. -/
theorem C2_adiabaticMultiplier_divergence :
    evaluateAdiabaticSurfaceTemperature 1 1 ⟨0, 0, 0, 0, 1⟩
        [⟨NeighborDirection.PositiveZ, 1, 1⟩] = 1/3 ∧
    adiabaticSurfaceTemperature_specForm 1 1 ⟨0, 0, 0, 0, 1⟩
        [⟨NeighborDirection.PositiveZ, 1, 1⟩] = 2/3 ∧
    evaluateAdiabaticSurfaceTemperature 1 1 ⟨0, 0, 0, 0, 1⟩
        [⟨NeighborDirection.PositiveZ, 1, 1⟩] ≠
      adiabaticSurfaceTemperature_specForm 1 1 ⟨0, 0, 0, 0, 1⟩
        [⟨NeighborDirection.PositiveZ, 1, 1⟩] := by
  refine ⟨?_, ?_, ?_⟩ <;>
    norm_num [evaluateAdiabaticSurfaceTemperature,
      adiabaticSurfaceTemperature_specForm, adiabaticMultiplier]

/-! ## Partition validation during mesh development
(CreatePartitionRegionList lines 5038-5186, IsInRange lines 3041-3067,
IsInRange_BasementModel lines 3072-3098) -/

structure MeshPartition where
  rDimension : ℚ
  totalWidth : ℚ
  deriving Repr, DecidableEq

structure PartitionRegion where
  Min : ℚ
  Max : ℚ
  deriving Repr, DecidableEq

/-- Embedding of the Real64 overload of `IsInRange`
(PlantPipingSystemsManager.cc:3041-3067): closed-interval membership. -/
def isInRange (r lower upper : ℚ) : Bool :=
  decide (r ≥ lower) && decide (r ≤ upper)

/-- Embedding of `IsInRange_BasementModel`
(PlantPipingSystemsManager.cc:3072-3098): half-open interval membership. -/
def isInRange_BasementModel (r lower upper : ℚ) : Bool :=
  decide (r ≥ lower) && decide (r < upper)

/-- CellLeft of a partition: rDimension - TotalWidth/2 (line 5098). -/
def partitionLeft (p : MeshPartition) : ℚ := p.rDimension - p.totalWidth / 2

/-- CellRight of a partition: rDimension + TotalWidth/2 (line 5099). -/
def partitionRight (p : MeshPartition) : ℚ := p.rDimension + p.totalWidth / 2

/-- The region recorded for an accepted partition (lines 5139-5140). -/
def partitionRegionOf (p : MeshPartition) : PartitionRegion :=
  ⟨partitionLeft p, partitionRight p⟩

/-- The per-pair conflict test of `CreatePartitionRegionList`
(lines 5110-5137): a previously recorded region raises the mesh-conflict fatal
error when the new partition's CellLeft or CellRight endpoint falls within the
region's [Min, Max] range (the CellLeft test is half-open for partition index
1 of the coupled-basement model). -/
def partitionOverlapCheck (hasCoupledBasement : Bool) (index : ℕ)
    (cellLeft cellRight : ℚ) (reg : PartitionRegion) : Bool :=
  if hasCoupledBasement && index == 1 then
    isInRange_BasementModel cellLeft reg.Min reg.Max ||
      isInRange cellRight reg.Min reg.Max
  else
    isInRange cellLeft reg.Min reg.Max || isInRange cellRight reg.Min reg.Max

/-- Embedding of the partition loop of `CreatePartitionRegionList`
(PlantPipingSystemsManager.cc:5092-5186): each partition is rejected fatally
(`ShowFatalError`, modelled as `Except.error`) when its range leaves
[0, DirExtentMax] or when one of its endpoints falls within an
already-recorded region; otherwise its region is appended and the scan
continues. -/
def createPartitionRegionListAux (hasCoupledBasement : Bool)
    (dirExtentMax : ℚ) :
    List MeshPartition → ℕ → List PartitionRegion →
      Except Unit (List PartitionRegion)
  | [], _, acc => Except.ok acc
  | p :: rest, index, acc =>
      if partitionLeft p < 0 ∨ partitionRight p > dirExtentMax then
        Except.error ()
      else if acc.any (partitionOverlapCheck hasCoupledBasement index
          (partitionLeft p) (partitionRight p)) then Except.error ()
      else createPartitionRegionListAux hasCoupledBasement dirExtentMax rest
        (index + 1) (acc ++ [partitionRegionOf p])

/-- `CreatePartitionRegionList` on one axis, starting from an empty region
collection. -/
def createPartitionRegionList (hasCoupledBasement : Bool)
    (partitions : List MeshPartition) (dirExtentMax : ℚ) :
    Except Unit (List PartitionRegion) :=
  createPartitionRegionListAux hasCoupledBasement dirExtentMax partitions 0 []

lemma any_overlapCheck_map (hasCoupledBasement : Bool)
    (prior : List MeshPartition) (idx : ℕ) (cellLeft cellRight : ℚ) :
    (prior.map partitionRegionOf).any
        (partitionOverlapCheck hasCoupledBasement idx cellLeft cellRight) =
      prior.any fun q =>
        partitionOverlapCheck hasCoupledBasement idx cellLeft cellRight
          (partitionRegionOf q) := by
  induction prior with
  | nil => rfl
  | cons q rest ih => simp only [List.map_cons, List.any_cons, ih]

lemma createPartitionRegionListAux_error_iff (hasCoupledBasement : Bool)
    (dirExtentMax : ℚ) :
    ∀ (parts prior : List MeshPartition) (index : ℕ),
      (createPartitionRegionListAux hasCoupledBasement dirExtentMax parts index
          (prior.map partitionRegionOf) = Except.error ()) ↔
        ∃ pre p post, parts = pre ++ p :: post ∧
          ((partitionLeft p < 0 ∨ partitionRight p > dirExtentMax) ∨
            ∃ q ∈ prior ++ pre,
              partitionOverlapCheck hasCoupledBasement (index + pre.length)
                (partitionLeft p) (partitionRight p)
                (partitionRegionOf q) = true) := by
  intro parts
  induction parts with
  | nil =>
      intro prior index
      constructor
      · intro h
        simp [createPartitionRegionListAux] at h
      · rintro ⟨pre, p, post, heq, -⟩
        cases pre <;> simp at heq
  | cons p rest ih =>
      intro prior index
      by_cases hb : partitionLeft p < 0 ∨ partitionRight p > dirExtentMax
      · simp only [createPartitionRegionListAux, if_pos hb]
        constructor
        · intro _
          exact ⟨[], p, rest, by simp, Or.inl hb⟩
        · intro _
          trivial
      · by_cases hov : (prior.any fun q =>
            partitionOverlapCheck hasCoupledBasement index (partitionLeft p)
              (partitionRight p) (partitionRegionOf q)) = true
        · simp only [createPartitionRegionListAux, if_neg hb,
            any_overlapCheck_map, hov, if_true]
          constructor
          · intro _
            obtain ⟨q, hqmem, hq⟩ := List.any_eq_true.mp hov
            refine ⟨[], p, rest, by simp,
              Or.inr ⟨q, by simpa using hqmem, ?_⟩⟩
            simpa using hq
          · intro _
            trivial
        · have hov' : (prior.any fun q =>
              partitionOverlapCheck hasCoupledBasement index (partitionLeft p)
                (partitionRight p) (partitionRegionOf q)) = false := by
            revert hov
            cases prior.any fun q =>
              partitionOverlapCheck hasCoupledBasement index (partitionLeft p)
                (partitionRight p) (partitionRegionOf q) <;> simp
          have hacc : (prior.map partitionRegionOf) ++ [partitionRegionOf p] =
              (prior ++ [p]).map partitionRegionOf := by
            simp
          have hstep : createPartitionRegionListAux hasCoupledBasement
              dirExtentMax (p :: rest) index (prior.map partitionRegionOf) =
              createPartitionRegionListAux hasCoupledBasement dirExtentMax rest
                (index + 1) ((prior ++ [p]).map partitionRegionOf) := by
            simp only [createPartitionRegionListAux, if_neg hb,
              any_overlapCheck_map, hov', Bool.false_eq_true, if_false, hacc]
          rw [hstep, ih (prior ++ [p]) (index + 1)]
          constructor
          · rintro ⟨pre, r, post, heq, hd⟩
            refine ⟨p :: pre, r, post, by simp [heq], ?_⟩
            rcases hd with hd | ⟨q, hqmem, hq⟩
            · exact Or.inl hd
            · refine Or.inr ⟨q, ?_, ?_⟩
              · simpa [List.append_assoc] using hqmem
              · have harith : index + (p :: pre).length =
                    index + 1 + pre.length := by
                  simp only [List.length_cons]
                  omega
                rw [harith]
                exact hq
          · rintro ⟨pre, r, post, heq, hd⟩
            cases pre with
            | nil =>
                simp only [List.nil_append, List.cons.injEq] at heq
                obtain ⟨hp, hrest⟩ := heq
                subst hp
                rcases hd with hd | ⟨q, hqmem, hq⟩
                · exact absurd hd hb
                · exfalso
                  have hany : (prior.any fun q =>
                      partitionOverlapCheck hasCoupledBasement index
                        (partitionLeft p) (partitionRight p)
                        (partitionRegionOf q)) = true :=
                    List.any_eq_true.mpr ⟨q, by simpa using hqmem,
                      by simpa using hq⟩
                  rw [hov'] at hany
                  exact Bool.false_ne_true hany
            | cons p0 pre0 =>
                simp only [List.cons_append, List.cons.injEq] at heq
                obtain ⟨hp, hrest⟩ := heq
                subst hp
                refine ⟨pre0, r, post, hrest, ?_⟩
                rcases hd with hd | ⟨q, hqmem, hq⟩
                · exact Or.inl hd
                · refine Or.inr ⟨q, ?_, ?_⟩
                  · simpa [List.append_assoc] using hqmem
                  · simp only [List.length_cons] at hq
                    have harith : index + 1 + pre0.length =
                        index + (pre0.length + 1) := by omega
                    rw [harith]
                    exact hq

/-- Claim C3 counterexample: the partition with range [4.05, 6.05] strictly
contains the earlier partition's range [4.9, 5.1] — the two ranges intersect —
yet `CreatePartitionRegionList` accepts the configuration and records both
regions instead of terminating fatally. -/
theorem C3_counterexample :
    createPartitionRegionList false
        [⟨5, 1/5⟩, ⟨101/20, 2⟩] 10 =
      Except.ok [⟨49/10, 51/10⟩, ⟨81/20, 121/20⟩] ∧
    (81/20 : ℚ) ≤ 49/10 ∧ (49/10 : ℚ) ≤ 121/20 := by
  refine ⟨?_, by norm_num, by norm_num⟩
  norm_num [createPartitionRegionList, createPartitionRegionListAux,
    partitionOverlapCheck, isInRange, partitionLeft, partitionRight,
    partitionRegionOf]

/-- Claim C3 (amended): during mesh development, for every domain, the axis
scan terminates fatally exactly when some forced partition's range leaves
[0, DirExtentMax], or one of its endpoints (CellLeft or CellRight) falls
within the range of an earlier partition on the same axis as tested by the
source's per-pair check — on the generic path both endpoints are tested
against the earlier closed [Min, Max] range, while for partition index 1 of
the coupled-basement model the CellLeft test is half-open ([Min, Max)), so
that the deliberately adjacent basement partition whose CellLeft equals the
earlier region's Max is accepted.  An overlap in which a later partition's
range strictly contains an earlier one touches neither endpoint and is
accepted. -/
theorem C3_partitionValidation_amended (hasCoupledBasement : Bool)
    (parts : List MeshPartition) (dirExtentMax : ℚ) :
    (createPartitionRegionList hasCoupledBasement parts dirExtentMax =
        Except.error () ↔
      ∃ pre p post, parts = pre ++ p :: post ∧
        ((partitionLeft p < 0 ∨ partitionRight p > dirExtentMax) ∨
          ∃ q ∈ pre,
            partitionOverlapCheck hasCoupledBasement pre.length
              (partitionLeft p) (partitionRight p)
              (partitionRegionOf q) = true)) ∧
    (∀ (idx : ℕ) (cellLeft cellRight : ℚ) (reg : PartitionRegion),
      partitionOverlapCheck false idx cellLeft cellRight reg =
        (isInRange cellLeft reg.Min reg.Max ||
          isInRange cellRight reg.Min reg.Max)) ∧
    (∀ (cellLeft cellRight : ℚ) (reg : PartitionRegion),
      partitionOverlapCheck true 1 cellLeft cellRight reg =
        (isInRange_BasementModel cellLeft reg.Min reg.Max ||
          isInRange cellRight reg.Min reg.Max)) := by
  refine ⟨?_, fun idx cellLeft cellRight reg => rfl,
    fun cellLeft cellRight reg => rfl⟩
  have h := createPartitionRegionListAux_error_iff hasCoupledBasement
    dirExtentMax parts [] 0
  simpa [createPartitionRegionList] using h

/-- Claim C9: the overlap validation only tests whether the new partition's
endpoints fall inside an earlier recorded region's closed [Min, Max] range, so
a partition whose range strictly contains an earlier partition's whole range
triggers no fatal error and both mutually overlapping regions are recorded. -/
theorem C9_containment_overlap_undetected (dirExtentMax : ℚ)
    (p q : MeshPartition)
    (hpL : 0 ≤ partitionLeft p) (hpR : partitionRight p ≤ dirExtentMax)
    (hqL : 0 ≤ partitionLeft q) (hqR : partitionRight q ≤ dirExtentMax)
    (hcontainL : partitionLeft q < partitionLeft p)
    (hcontainR : partitionRight p < partitionRight q) :
    createPartitionRegionList false [p, q] dirExtentMax =
      Except.ok [partitionRegionOf p, partitionRegionOf q] := by
  have hbp : ¬ (partitionLeft p < 0 ∨ partitionRight p > dirExtentMax) := by
    push_neg
    exact ⟨hpL, hpR⟩
  have hbq : ¬ (partitionLeft q < 0 ∨ partitionRight q > dirExtentMax) := by
    push_neg
    exact ⟨hqL, hqR⟩
  have hcheck : partitionOverlapCheck false 1 (partitionLeft q)
      (partitionRight q) (partitionRegionOf p) = false := by
    have h1 : ¬ partitionLeft q ≥ partitionLeft p := not_le.mpr hcontainL
    have h2 : ¬ partitionRight q ≤ partitionRight p := not_le.mpr hcontainR
    simp [partitionOverlapCheck, partitionRegionOf, isInRange, h1, h2]
  simp only [createPartitionRegionList, createPartitionRegionListAux,
    if_neg hbp, List.any_nil, Bool.false_eq_true, if_false, List.nil_append,
    if_neg hbq, List.any_cons, hcheck, Bool.false_or]
  rfl

/-- Witness for C9: a pipe partition of width 0.2 centred at 5 inside a wider
partition of width 2 centred at 5.05 on a 10 m axis. -/
theorem C9_containment_overlap_undetected_witness :
    (0 ≤ partitionLeft ⟨5, 1/5⟩ ∧ partitionRight ⟨5, 1/5⟩ ≤ 10 ∧
      0 ≤ partitionLeft ⟨101/20, 2⟩ ∧ partitionRight ⟨101/20, 2⟩ ≤ 10 ∧
      partitionLeft ⟨101/20, 2⟩ < partitionLeft ⟨5, 1/5⟩ ∧
      partitionRight ⟨5, 1/5⟩ < partitionRight ⟨101/20, 2⟩) ∧
    createPartitionRegionList false [⟨5, 1/5⟩, ⟨101/20, 2⟩] 10 =
      Except.ok [partitionRegionOf ⟨5, 1/5⟩, partitionRegionOf ⟨101/20, 2⟩] := by
  refine ⟨⟨?_, ?_, ?_, ?_, ?_, ?_⟩, ?_⟩
  · norm_num [partitionLeft]
  · norm_num [partitionRight]
  · norm_num [partitionLeft]
  · norm_num [partitionRight]
  · norm_num [partitionLeft]
  · norm_num [partitionRight]
  · exact C9_containment_overlap_undetected 10 ⟨5, 1/5⟩ ⟨101/20, 2⟩
      (by norm_num [partitionLeft]) (by norm_num [partitionRight])
      (by norm_num [partitionLeft]) (by norm_num [partitionRight])
      (by norm_num [partitionLeft]) (by norm_num [partitionRight])

/-! ## Boundary point arrays
(CreateBoundaryListCount lines 5413-5477, CreateBoundaryList lines 5483-5548) -/

inductive RegionType
  | Pipe
  | BasementFloor
  | BasementWall
  | XSide
  | XSideWall
  | ZSide
  | ZSideWall
  | HorizInsXSide
  | HorizInsZSide
  | FloorInside
  | UnderFloor
  | VertInsLowerEdge
  | XDirection
  | YDirection
  | ZDirection
  deriving Repr, DecidableEq

/-- The std::set membership test of lines 5462-5463 and 5529-5530: region
types that stand for a single forced partition cell. -/
def isPartitionRegionType : RegionType → Bool
  | .Pipe => true
  | .BasementFloor => true
  | .BasementWall => true
  | .XSide => true
  | .XSideWall => true
  | .ZSide => true
  | .ZSideWall => true
  | .HorizInsXSide => true
  | .HorizInsZSide => true
  | .FloorInside => true
  | .UnderFloor => true
  | .VertInsLowerEdge => true
  | _ => false

structure GridRegion where
  Min : ℚ
  Max : ℚ
  regionType : RegionType
  cellWidths : List ℚ
  deriving Repr, DecidableEq

/-- Embedding of `CreateBoundaryListCount`
(PlantPipingSystemsManager.cc:5459-5475): one slot per partition-type region,
one per cell width of each region matching the axis direction, plus one. -/
def createBoundaryListCount (regionList : List GridRegion)
    (dirDirection : RegionType) : ℕ :=
  (regionList.foldl
      (fun retVal r =>
        if isPartitionRegionType r.regionType then retVal + 1
        else if r.regionType = dirDirection then retVal + r.cellWidths.length
        else retVal) 0) + 1

/-- The points written for one direction-type mesh region (lines 5535-5540):
StartingPointCounter begins at the region Min and each cell width is added
after its left boundary is emitted. -/
def meshRegionPoints (startingPoint : ℚ) : List ℚ → List ℚ
  | [] => []
  | w :: ws => startingPoint :: meshRegionPoints (startingPoint + w) ws

/-- The points written for one region of the scan of `CreateBoundaryList`
(lines 5528-5543): a partition-type region contributes its Min, a region of
the axis direction contributes one point per cell width. -/
def boundaryPointsOfRegion (dirDirection : RegionType) (r : GridRegion) :
    List ℚ :=
  if isPartitionRegionType r.regionType then [r.Min]
  else if r.regionType = dirDirection then meshRegionPoints r.Min r.cellWidths
  else []

/-- The points emitted by the region scan, in region order. -/
def emittedBoundaryPoints (dirDirection : RegionType) :
    List GridRegion → List ℚ
  | [] => []
  | r :: rest =>
      boundaryPointsOfRegion dirDirection r ++
        emittedBoundaryPoints dirDirection rest

/-- Embedding of `CreateBoundaryList`
(PlantPipingSystemsManager.cc:5483-5548): the scan's points followed by the
final entry, which is assigned DirExtentMax (line 5544). -/
def createBoundaryList (regionList : List GridRegion) (dirExtentMax : ℚ)
    (dirDirection : RegionType) : List ℚ :=
  emittedBoundaryPoints dirDirection regionList ++ [dirExtentMax]

/-- Number of mesh cells a region stands for: 1 for a partition-type region,
one per cell width for a region of the axis direction. -/
def regionCellCount (dirDirection : RegionType) (r : GridRegion) : ℕ :=
  if isPartitionRegionType r.regionType then 1
  else if r.regionType = dirDirection then r.cellWidths.length
  else 0

/-- Total number of cells along the axis: sum of per-region cell counts. -/
def totalCellCount (regionList : List GridRegion)
    (dirDirection : RegionType) : ℕ :=
  (regionList.map (regionCellCount dirDirection)).sum

/-- A per-axis region list is contiguous from `lo` to `hi`. -/
def regionsCover (lo hi : ℚ) : List GridRegion → Bool
  | [] => decide (lo = hi)
  | r :: rest => decide (r.Min = lo) && regionsCover r.Max hi rest

/-- Well-formedness of one region of a successfully meshed axis: nonempty
extent, and for a mesh region of the axis direction a nonempty positive cell
width list summing exactly to the region span.  Regions of a foreign
direction type do not occur in a per-axis region list. -/
def regionWellFormed (dirDirection : RegionType) (r : GridRegion) : Bool :=
  decide (r.Min < r.Max) &&
    (if isPartitionRegionType r.regionType then true
    else if r.regionType = dirDirection then
      (!r.cellWidths.isEmpty) && r.cellWidths.all (fun w => decide (0 < w)) &&
        decide (r.cellWidths.sum = r.Max - r.Min)
    else false)

lemma mem_of_head?_mem {α : Type} {l : List α} {x : α} (h : x ∈ l.head?) :
    x ∈ l := by
  cases l with
  | nil => simp at h
  | cons a t =>
      simp only [List.head?_cons, Option.mem_def, Option.some.injEq] at h
      subst h
      exact List.mem_cons_self a t

lemma mem_of_getLast?_mem {α : Type} {l : List α} {x : α}
    (h : x ∈ l.getLast?) : x ∈ l := by
  obtain ⟨hne, heq⟩ := List.mem_getLast?_eq_getLast h
  rw [heq]
  exact List.getLast_mem hne

lemma meshRegionPoints_spec (ws : List ℚ) :
    ∀ start : ℚ, (∀ w ∈ ws, 0 < w) →
      (meshRegionPoints start ws).length = ws.length ∧
      List.Chain' (· < ·) (meshRegionPoints start ws) ∧
      (∀ x ∈ meshRegionPoints start ws, start ≤ x ∧ x < start + ws.sum) ∧
      (ws ≠ [] → (meshRegionPoints start ws).head? = some start) := by
  induction ws with
  | nil =>
      intro start _
      refine ⟨rfl, List.chain'_nil, ?_, fun h => absurd rfl h⟩
      intro x hx
      simp [meshRegionPoints] at hx
  | cons w ws ih =>
      intro start hpos
      have hw : 0 < w := hpos w (List.mem_cons_self w ws)
      have hrest : ∀ x ∈ ws, 0 < x := fun x hx => hpos x (List.mem_cons_of_mem w hx)
      obtain ⟨ihlen, ihchain, ihmem, ihhead⟩ := ih (start + w) hrest
      have hsum : 0 ≤ ws.sum := List.sum_nonneg fun x hx => le_of_lt (hrest x hx)
      refine ⟨?_, ?_, ?_, ?_⟩
      · simp [meshRegionPoints, ihlen]
      · rw [meshRegionPoints, List.chain'_cons']
        refine ⟨?_, ihchain⟩
        intro b hb
        have hne : ws ≠ [] := by
          intro hcon
          rw [hcon] at hb
          simp [meshRegionPoints] at hb
        rw [ihhead hne] at hb
        simp only [Option.mem_def, Option.some.injEq] at hb
        subst hb
        linarith
      · intro x hx
        rw [meshRegionPoints] at hx
        rcases List.mem_cons.mp hx with hx | hx
        · subst hx
          constructor
          · exact le_rfl
          · have : 0 < w + ws.sum := by linarith
            simpa [List.sum_cons] using by linarith
        · obtain ⟨h1, h2⟩ := ihmem x hx
          constructor
          · linarith
          · simpa [List.sum_cons] using by linarith
      · intro _
        rfl

lemma emittedBoundaryPoints_spec (dirDirection : RegionType) :
    ∀ (rs : List GridRegion) (lo hi : ℚ),
      regionsCover lo hi rs = true →
      rs.all (regionWellFormed dirDirection) = true →
      (emittedBoundaryPoints dirDirection rs).length =
          totalCellCount rs dirDirection ∧
      List.Chain' (· < ·) (emittedBoundaryPoints dirDirection rs) ∧
      (∀ x ∈ emittedBoundaryPoints dirDirection rs, lo ≤ x ∧ x < hi) ∧
      lo ≤ hi ∧
      (rs ≠ [] →
        (emittedBoundaryPoints dirDirection rs).head? = some lo) := by
  intro rs
  induction rs with
  | nil =>
      intro lo hi hcover _
      have : lo = hi := by simpa [regionsCover] using hcover
      subst this
      refine ⟨rfl, List.chain'_nil, ?_, le_rfl, fun h => absurd rfl h⟩
      intro x hx
      simp [emittedBoundaryPoints] at hx
  | cons r rest ih =>
      intro lo hi hcover hwf
      rw [regionsCover, Bool.and_eq_true, decide_eq_true_eq] at hcover
      obtain ⟨hmin, hcover'⟩ := hcover
      rw [List.all_cons, Bool.and_eq_true] at hwf
      obtain ⟨hwfr, hwf'⟩ := hwf
      obtain ⟨ihlen, ihchain, ihmem, ihle, ihhead⟩ := ih r.Max hi hcover' hwf'
      rw [regionWellFormed, Bool.and_eq_true, decide_eq_true_eq] at hwfr
      obtain ⟨hlt, hbranch⟩ := hwfr
      have hmax_le : r.Max ≤ hi := ihle
      -- characterise this region's own points
      have hregion :
          (boundaryPointsOfRegion dirDirection r).length =
              regionCellCount dirDirection r ∧
          List.Chain' (· < ·) (boundaryPointsOfRegion dirDirection r) ∧
          (∀ x ∈ boundaryPointsOfRegion dirDirection r,
            r.Min ≤ x ∧ x < r.Max) ∧
          (boundaryPointsOfRegion dirDirection r).head? = some r.Min := by
        by_cases hpart : isPartitionRegionType r.regionType = true
        · refine ⟨?_, ?_, ?_, ?_⟩ <;>
            simp [boundaryPointsOfRegion, regionCellCount, hpart, hlt, le_rfl]
        · have hpart' : isPartitionRegionType r.regionType = false := by
            revert hpart
            cases isPartitionRegionType r.regionType <;> simp
          rw [if_neg (by simp [hpart'])] at hbranch
          by_cases hdir : r.regionType = dirDirection
          · rw [if_pos hdir, Bool.and_eq_true, Bool.and_eq_true] at hbranch
            obtain ⟨⟨hne, hall⟩, hsum⟩ := hbranch
            rw [decide_eq_true_eq] at hsum
            have hpos : ∀ w ∈ r.cellWidths, 0 < w := by
              intro w hw
              have := List.all_eq_true.mp hall w hw
              exact of_decide_eq_true this
            obtain ⟨mlen, mchain, mmem, mhead⟩ :=
              meshRegionPoints_spec r.cellWidths r.Min hpos
            have hne' : r.cellWidths ≠ [] := by
              revert hne
              cases r.cellWidths <;> simp
            have hnotp : ¬ isPartitionRegionType r.regionType = true := by
              simp [hpart']
            have hbp : boundaryPointsOfRegion dirDirection r =
                meshRegionPoints r.Min r.cellWidths := by
              rw [boundaryPointsOfRegion, if_neg hnotp, if_pos hdir]
            have hcc : regionCellCount dirDirection r = r.cellWidths.length := by
              rw [regionCellCount, if_neg hnotp, if_pos hdir]
            refine ⟨?_, ?_, ?_, ?_⟩
            · rw [hbp, hcc, mlen]
            · rw [hbp]
              exact mchain
            · intro x hx
              rw [hbp] at hx
              obtain ⟨h1, h2⟩ := mmem x hx
              rw [hsum] at h2
              exact ⟨h1, by linarith⟩
            · rw [hbp]
              exact mhead hne'
          · rw [if_neg hdir] at hbranch
            exact absurd hbranch (by simp)
      obtain ⟨rlen, rchain, rmem, rhead⟩ := hregion
      have hlo_le : lo ≤ hi := by rw [← hmin]; linarith
      refine ⟨?_, ?_, ?_, hlo_le, ?_⟩
      · simp [emittedBoundaryPoints, totalCellCount, rlen, ihlen]
      · rw [emittedBoundaryPoints, List.chain'_append]
        refine ⟨rchain, ihchain, ?_⟩
        intro x hx y hy
        have hxmem : x ∈ boundaryPointsOfRegion dirDirection r :=
          mem_of_getLast?_mem hx
        have hymem : y ∈ emittedBoundaryPoints dirDirection rest :=
          mem_of_head?_mem hy
        have h1 := (rmem x hxmem).2
        have h2 := (ihmem y hymem).1
        linarith
      · intro x hx
        rw [emittedBoundaryPoints, List.mem_append] at hx
        rcases hx with hx | hx
        · obtain ⟨h1, h2⟩ := rmem x hx
          rw [hmin] at h1
          exact ⟨h1, by linarith⟩
        · obtain ⟨h1, h2⟩ := ihmem x hx
          constructor
          · rw [← hmin]; linarith
          · exact h2
      · intro _
        rw [emittedBoundaryPoints, List.head?_append_of_ne_nil]
        · rw [rhead, hmin]
        · intro hcon
          rw [hcon] at rhead
          simp at rhead

lemma createBoundaryListCount_foldl (dirDirection : RegionType) :
    ∀ (rs : List GridRegion) (acc : ℕ),
      rs.foldl
          (fun retVal r =>
            if isPartitionRegionType r.regionType then retVal + 1
            else if r.regionType = dirDirection then
              retVal + r.cellWidths.length
            else retVal) acc =
        acc + totalCellCount rs dirDirection := by
  intro rs
  induction rs with
  | nil => intro acc; simp [totalCellCount]
  | cons r rest ih =>
      intro acc
      rw [List.foldl_cons, ih]
      have : (if isPartitionRegionType r.regionType then acc + 1
          else if r.regionType = dirDirection then acc + r.cellWidths.length
          else acc) = acc + regionCellCount dirDirection r := by
        rw [regionCellCount]
        split_ifs <;> simp
      rw [this]
      simp only [totalCellCount, List.map_cons, List.sum_cons]
      omega

/-- Claim C4: for a successfully meshed axis (a contiguous well-formed region
list spanning [0, DirExtentMax]), the boundary-point array produced by
`CreateBoundaryList` starts at exactly 0, ends at exactly DirExtentMax, is
strictly increasing, and its length is the sum of the per-region cell counts
plus one, which is exactly the slot count computed by
`CreateBoundaryListCount`. -/
theorem C4_boundaryList_spec (regionList : List GridRegion)
    (dirExtentMax : ℚ) (dirDirection : RegionType)
    (hcover : regionsCover 0 dirExtentMax regionList = true)
    (hwf : regionList.all (regionWellFormed dirDirection) = true) :
    (createBoundaryList regionList dirExtentMax dirDirection).head? = some 0 ∧
    (createBoundaryList regionList dirExtentMax dirDirection).getLast? =
      some dirExtentMax ∧
    List.Chain' (· < ·)
      (createBoundaryList regionList dirExtentMax dirDirection) ∧
    (createBoundaryList regionList dirExtentMax dirDirection).length =
      totalCellCount regionList dirDirection + 1 ∧
    createBoundaryListCount regionList dirDirection =
      totalCellCount regionList dirDirection + 1 := by
  obtain ⟨hlen, hchain, hmem, hle, hhead⟩ :=
    emittedBoundaryPoints_spec dirDirection regionList 0 dirExtentMax hcover hwf
  refine ⟨?_, ?_, ?_, ?_, ?_⟩
  · rw [createBoundaryList]
    cases hrs : regionList with
    | nil =>
        subst hrs
        have : (0 : ℚ) = dirExtentMax := by simpa [regionsCover] using hcover
        simp [emittedBoundaryPoints, ← this]
    | cons r rest =>
        rw [← hrs]
        have hne : emittedBoundaryPoints dirDirection regionList ≠ [] := by
          intro hcon
          have := hhead (by simp [hrs])
          rw [hcon] at this
          simp at this
        rw [List.head?_append_of_ne_nil _ hne]
        exact hhead (by simp [hrs])
  · rw [createBoundaryList,
      List.getLast?_append_of_ne_nil (emittedBoundaryPoints dirDirection
        regionList) (by simp : ([dirExtentMax] : List ℚ) ≠ [])]
    rfl
  · rw [createBoundaryList, List.chain'_append]
    refine ⟨hchain, List.chain'_singleton dirExtentMax, ?_⟩
    intro x hx y hy
    have hxmem : x ∈ emittedBoundaryPoints dirDirection regionList :=
      mem_of_getLast?_mem hx
    simp only [List.head?_cons, Option.mem_def, Option.some.injEq] at hy
    subst hy
    exact (hmem x hxmem).2
  · rw [createBoundaryList, List.length_append, hlen]
    rfl
  · rw [createBoundaryListCount, createBoundaryListCount_foldl]
    omega

/-- Witness for C4: a three-region X axis — a two-cell uniform mesh region, a
pipe partition cell, and a one-cell mesh region — spanning [0, 3]. -/
theorem C4_boundaryList_spec_witness :
    (regionsCover 0 3
        [⟨0, 1, RegionType.XDirection, [1/2, 1/2]⟩,
          ⟨1, 6/5, RegionType.Pipe, []⟩,
          ⟨6/5, 3, RegionType.XDirection, [9/5]⟩] = true ∧
      List.all
        [⟨0, 1, RegionType.XDirection, [1/2, 1/2]⟩,
          ⟨1, 6/5, RegionType.Pipe, []⟩,
          ⟨6/5, 3, RegionType.XDirection, [9/5]⟩]
        (regionWellFormed RegionType.XDirection) = true) ∧
    (createBoundaryList
        [⟨0, 1, RegionType.XDirection, [1/2, 1/2]⟩,
          ⟨1, 6/5, RegionType.Pipe, []⟩,
          ⟨6/5, 3, RegionType.XDirection, [9/5]⟩] 3
        RegionType.XDirection).head? = some 0 ∧
    (createBoundaryList
        [⟨0, 1, RegionType.XDirection, [1/2, 1/2]⟩,
          ⟨1, 6/5, RegionType.Pipe, []⟩,
          ⟨6/5, 3, RegionType.XDirection, [9/5]⟩] 3
        RegionType.XDirection).getLast? = some 3 ∧
    List.Chain' (· < ·)
      (createBoundaryList
        [⟨0, 1, RegionType.XDirection, [1/2, 1/2]⟩,
          ⟨1, 6/5, RegionType.Pipe, []⟩,
          ⟨6/5, 3, RegionType.XDirection, [9/5]⟩] 3
        RegionType.XDirection) ∧
    (createBoundaryList
        [⟨0, 1, RegionType.XDirection, [1/2, 1/2]⟩,
          ⟨1, 6/5, RegionType.Pipe, []⟩,
          ⟨6/5, 3, RegionType.XDirection, [9/5]⟩] 3
        RegionType.XDirection).length =
      totalCellCount
        [⟨0, 1, RegionType.XDirection, [1/2, 1/2]⟩,
          ⟨1, 6/5, RegionType.Pipe, []⟩,
          ⟨6/5, 3, RegionType.XDirection, [9/5]⟩] RegionType.XDirection + 1 ∧
    createBoundaryListCount
        [⟨0, 1, RegionType.XDirection, [1/2, 1/2]⟩,
          ⟨1, 6/5, RegionType.Pipe, []⟩,
          ⟨6/5, 3, RegionType.XDirection, [9/5]⟩] RegionType.XDirection =
      totalCellCount
        [⟨0, 1, RegionType.XDirection, [1/2, 1/2]⟩,
          ⟨1, 6/5, RegionType.Pipe, []⟩,
          ⟨6/5, 3, RegionType.XDirection, [9/5]⟩] RegionType.XDirection + 1 := by
  have hcover : regionsCover 0 3
      [⟨0, 1, RegionType.XDirection, [1/2, 1/2]⟩,
        ⟨1, 6/5, RegionType.Pipe, []⟩,
        ⟨6/5, 3, RegionType.XDirection, [9/5]⟩] = true := by
    norm_num [regionsCover]
  have hwf : List.all
      [⟨0, 1, RegionType.XDirection, [1/2, 1/2]⟩,
        ⟨1, 6/5, RegionType.Pipe, []⟩,
        ⟨6/5, 3, RegionType.XDirection, [9/5]⟩]
      (regionWellFormed RegionType.XDirection) = true := by
    norm_num [List.all_cons, List.all_nil, regionWellFormed,
      isPartitionRegionType, List.isEmpty, List.sum_cons, List.sum_nil]
  obtain ⟨h1, h2, h3, h4, h5⟩ := C4_boundaryList_spec
    [⟨0, 1, RegionType.XDirection, [1/2, 1/2]⟩,
      ⟨1, 6/5, RegionType.Pipe, []⟩,
      ⟨6/5, 3, RegionType.XDirection, [9/5]⟩] 3 RegionType.XDirection
    hcover hwf
  exact ⟨⟨hcover, hwf⟩, h1, h2, h3, h4, h5⟩

/-! ## Circuit convection coefficient
(PreparePipeCircuitSimulation, lines 7893-7973) -/

structure PipeSize where
  innerDia : ℝ

structure FluidProps where
  density : ℝ
  viscosity : ℝ
  conductivity : ℝ
  prandtl : ℝ
  specificHeat : ℝ

structure PipeCircuit where
  pipeSize : PipeSize
  curFluidPropertySet : FluidProps
  curCircuitFlowRate : ℝ

/-- Embedding of the convection-coefficient computation of
`PreparePipeCircuitSimulation` (PlantPipingSystemsManager.cc:7940-7971).  The
global circuit array is modelled as `pipingSystemCircuits : ℕ → PipeCircuit`;
`inletFluidTemp` and `inletPipeTemp` are the fluid and pipe-wall temperatures
of the circuit's inlet cell.  Note the final division: the source divides by
`PipingSystemCircuits( DomainNum ).PipeSize.InnerDia` (line 7965), indexing the
circuit array with the domain index. -/
noncomputable def preparePipeCircuitSimulation
    (pipingSystemCircuits : ℕ → PipeCircuit) (domainNum circuitNum : ℕ)
    (inletFluidTemp inletPipeTemp : ℝ) : ℝ :=
  let c := pipingSystemCircuits circuitNum
  let density := c.curFluidPropertySet.density
  let viscosity := c.curFluidPropertySet.viscosity
  let conductivity := c.curFluidPropertySet.conductivity
  let prandtl := c.curFluidPropertySet.prandtl
  let area_c := (Real.pi / 4) * c.pipeSize.innerDia ^ 2
  let velocity := c.curCircuitFlowRate / (density * area_c)
  if velocity > 0 then
    let reynolds := density * c.pipeSize.innerDia * velocity / viscosity
    let exponentTerm : ℝ := if inletFluidTemp > inletPipeTemp then 0.3 else 0.4
    let nusselt := 0.023 * reynolds ^ ((4 : ℝ) / 5) * prandtl ^ exponentTerm
    nusselt * conductivity / (pipingSystemCircuits domainNum).pipeSize.innerDia
  else
    200

/-- Modelled from the spec: the claimed convection coefficient of the circuit
itself — Dittus-Boelter Nu = 0.023·Re^0.8·Pr^n with n selected by comparing
the inlet cell's fluid and pipe-wall temperatures, Re from the circuit's own
inner diameter, coefficient Nu·k_fluid/InnerDia of that same circuit, and the
fixed 200 W/m²K stagnant value at zero velocity. -/
noncomputable def circuitConvectionCoefficient_claim (c : PipeCircuit)
    (inletFluidTemp inletPipeTemp : ℝ) : ℝ :=
  let density := c.curFluidPropertySet.density
  let viscosity := c.curFluidPropertySet.viscosity
  let conductivity := c.curFluidPropertySet.conductivity
  let prandtl := c.curFluidPropertySet.prandtl
  let area_c := (Real.pi / 4) * c.pipeSize.innerDia ^ 2
  let velocity := c.curCircuitFlowRate / (density * area_c)
  if velocity > 0 then
    let reynolds := density * c.pipeSize.innerDia * velocity / viscosity
    let exponentTerm : ℝ := if inletFluidTemp > inletPipeTemp then 0.3 else 0.4
    let nusselt := 0.023 * reynolds ^ ((4 : ℝ) / 5) * prandtl ^ exponentTerm
    nusselt * conductivity / c.pipeSize.innerDia
  else
    200

/-- A concrete circuit array: the circuit at index 0 (the domain index below)
has inner diameter 2, the circuit at index 1 (the circuit index below) has
inner diameter 1; both carry unit fluid properties and unit flow rate. -/
noncomputable def circuitsEx : ℕ → PipeCircuit := fun n =>
  if n = 0 then ⟨⟨2⟩, ⟨1, 1, 1, 1, 1⟩, 1⟩ else ⟨⟨1⟩, ⟨1, 1, 1, 1, 1⟩, 1⟩

lemma preparePipeCircuitSimulation_eval_ex :
    preparePipeCircuitSimulation circuitsEx 0 1 1 0 =
      0.023 * (4 / Real.pi) ^ ((4 : ℝ) / 5) / 2 := by
  have hpi := Real.pi_pos
  simp only [preparePipeCircuitSimulation, circuitsEx]
  norm_num
  intro h
  linarith

lemma circuitConvectionCoefficient_claim_eval_ex :
    circuitConvectionCoefficient_claim (circuitsEx 1) 1 0 =
      0.023 * (4 / Real.pi) ^ ((4 : ℝ) / 5) := by
  have hpi := Real.pi_pos
  simp only [circuitConvectionCoefficient_claim, circuitsEx]
  norm_num
  intro h
  linarith

/-- Claim C5 (code bug): at DomainNum = 0, CircuitNum = 1 the code computes
Nusselt from circuit 1 but divides by the inner diameter of circuit 0 — the
array is indexed with DomainNum on line 7965 — so the resulting coefficient is
half the claimed Nu·k/InnerDia of the circuit being prepared; the two
computations agree exactly when the domain and circuit indices coincide. -/
theorem C5_convectionCoefficient_index_bug :
    preparePipeCircuitSimulation circuitsEx 0 1 1 0 =
      0.023 * (4 / Real.pi) ^ ((4 : ℝ) / 5) / 2 ∧
    circuitConvectionCoefficient_claim (circuitsEx 1) 1 0 =
      0.023 * (4 / Real.pi) ^ ((4 : ℝ) / 5) ∧
    preparePipeCircuitSimulation circuitsEx 0 1 1 0 ≠
      circuitConvectionCoefficient_claim (circuitsEx 1) 1 0 ∧
    ∀ (circuits : ℕ → PipeCircuit) (n : ℕ) (tf tp : ℝ),
      preparePipeCircuitSimulation circuits n n tf tp =
        circuitConvectionCoefficient_claim (circuits n) tf tp := by
  refine ⟨preparePipeCircuitSimulation_eval_ex,
    circuitConvectionCoefficient_claim_eval_ex, ?_, fun circuits n tf tp => rfl⟩
  rw [preparePipeCircuitSimulation_eval_ex,
    circuitConvectionCoefficient_claim_eval_ex]
  have hpos : (0 : ℝ) < 0.023 * (4 / Real.pi) ^ ((4 : ℝ) / 5) := by
    have hpi := Real.pi_pos
    positivity
  intro hcon
  nlinarith [hcon]

/-! ## Far-field boundary temperature
(GetFarfieldTemp lines 7827-7887, BaseThermalPropertySet_Diffusivity
lines 3343-3369) -/

structure BaseThermalPropertySet where
  conductivity : ℝ
  density : ℝ
  specificHeat : ℝ

/-- Embedding of `BaseThermalPropertySet_Diffusivity`
(PlantPipingSystemsManager.cc:3343-3369). -/
noncomputable def baseThermalPropertySet_Diffusivity
    (p : BaseThermalPropertySet) : ℝ :=
  p.conductivity / (p.density * p.specificHeat)

/-- Modelled from the spec: `DataGlobals::SecsInDay` is consumed from outside
this repository; the spec fixes the year length as 365·86400 seconds, so one
day is 86400 seconds. -/
noncomputable def secsInDay : ℝ := 86400

structure FarfieldInfo where
  averageGroundTemperature : ℝ
  averageGroundTemperatureAmplitude : ℝ
  phaseShiftOfMinGroundTemp : ℝ

/-- Embedding of `GetFarfieldTemp` (PlantPipingSystemsManager.cc:7872-7885):
z = Ymax - cell centroid Y, Term1 = -z·√(π/(Y_sec·α)),
Term2 = (2π/Y_sec)·(t - phase - (z/2)·√(Y_sec/(π·α))), and the result
T_avg - T_amp·exp(Term1)·cos(Term2). -/
noncomputable def getFarfieldTemp (ground : BaseThermalPropertySet)
    (farfield : FarfieldInfo) (ymax ycentroid curTime : ℝ) : ℝ :=
  let secondsInYear := secsInDay * 365
  let z := ymax - ycentroid
  let diffusivity := baseThermalPropertySet_Diffusivity ground
  let term1 := -z * Real.sqrt (Real.pi / (secondsInYear * diffusivity))
  let term2 := (2 * Real.pi / secondsInYear) *
    (curTime - farfield.phaseShiftOfMinGroundTemp -
      (z / 2) * Real.sqrt (secondsInYear / (Real.pi * diffusivity)))
  farfield.averageGroundTemperature -
    farfield.averageGroundTemperatureAmplitude * Real.exp term1 *
      Real.cos term2

/-- Modelled from the spec, with its formula parsed literally: the claimed
closed form T = T_avg - T_amp·exp(-z·√(π/(365days·α)))·
cos(2π/365days·(t - phaseShift) - (z/2)·√(365days/(π·α))), in which the
2π/365days factor multiplies only the (t - phaseShift) difference and the
depth-lag term is subtracted from the product rather than from the time. -/
noncomputable def kusudaAchenbach_literal (ground : BaseThermalPropertySet)
    (farfield : FarfieldInfo) (ymax ycentroid curTime : ℝ) : ℝ :=
  let secondsInYear := secsInDay * 365
  let z := ymax - ycentroid
  let diffusivity := baseThermalPropertySet_Diffusivity ground
  farfield.averageGroundTemperature -
    farfield.averageGroundTemperatureAmplitude *
      Real.exp (-z * Real.sqrt (Real.pi / (secondsInYear * diffusivity))) *
      Real.cos (2 * Real.pi / secondsInYear *
          (curTime - farfield.phaseShiftOfMinGroundTemp) -
        (z / 2) * Real.sqrt (secondsInYear / (Real.pi * diffusivity)))

/-- Claim C6 counterexample: with conductivity 31536000/π, unit density and
specific heat (so α = 31536000/π and the depth-lag square root equals 1),
amplitude 1, average and phase 0, depth z = 2π and t = 0, the code's value is
negative (its cosine argument is a tiny negative angle, cosine positive) while
the spec formula as literally parsed evaluates its cosine at exactly -π and is
positive — so GetFarfieldTemp does not implement the literal formula. -/
theorem C6_counterexample :
    getFarfieldTemp ⟨31536000 / Real.pi, 1, 1⟩ ⟨0, 1, 0⟩ (2 * Real.pi) 0 0 ≠
      kusudaAchenbach_literal ⟨31536000 / Real.pi, 1, 1⟩ ⟨0, 1, 0⟩
        (2 * Real.pi) 0 0 := by
  have hpi := Real.pi_pos
  have halpha : baseThermalPropertySet_Diffusivity ⟨31536000 / Real.pi, 1, 1⟩ =
      31536000 / Real.pi := by
    simp [baseThermalPropertySet_Diffusivity]
  have hS : (secsInDay * 365 : ℝ) = 31536000 := by norm_num [secsInDay]
  have harg1 : Real.pi / ((31536000 : ℝ) * (31536000 / Real.pi)) =
      (Real.pi / 31536000) ^ 2 := by
    field_simp
    ring
  have hsqrt1 : Real.sqrt (Real.pi / ((31536000 : ℝ) * (31536000 / Real.pi))) =
      Real.pi / 31536000 := by
    rw [harg1, Real.sqrt_sq (by positivity)]
  have harg2 : (31536000 : ℝ) / (Real.pi * (31536000 / Real.pi)) = 1 := by
    field_simp
  have hsqrt2 : Real.sqrt ((31536000 : ℝ) / (Real.pi * (31536000 / Real.pi))) =
      1 := by
    rw [harg2, Real.sqrt_one]
  have hcospos : 0 < Real.cos ((2 * Real.pi / 31536000) *
      (0 - 0 - ((2 * Real.pi - 0) / 2) * 1)) := by
    apply Real.cos_pos_of_mem_Ioo
    constructor
    · have heq : (2 * Real.pi / 31536000) *
          (0 - 0 - ((2 * Real.pi - 0) / 2) * 1) =
          -(Real.pi * Real.pi / 15768000) := by ring
      rw [heq]
      have h1 : Real.pi * Real.pi / 15768000 < 1 := by
        nlinarith [Real.pi_lt_d2]
      have h2 : (1 : ℝ) < Real.pi / 2 := by nlinarith [Real.pi_gt_d2]
      linarith
    · have heq : (2 * Real.pi / 31536000) *
          (0 - 0 - ((2 * Real.pi - 0) / 2) * 1) =
          -(Real.pi * Real.pi / 15768000) := by ring
      rw [heq]
      have h1 : 0 < Real.pi * Real.pi / 15768000 := by positivity
      linarith
  have hcosneg : Real.cos (2 * Real.pi / 31536000 * (0 - 0) -
      ((2 * Real.pi - 0) / 2) * 1) = -1 := by
    have heq : (2 * Real.pi / 31536000 * (0 - 0) -
        ((2 * Real.pi - 0) / 2) * 1) = -Real.pi := by ring
    rw [heq, Real.cos_neg, Real.cos_pi]
  unfold getFarfieldTemp kusudaAchenbach_literal
  simp only [halpha, hS, hsqrt1, hsqrt2]
  rw [hcosneg]
  intro hcon
  have hexp : 0 < Real.exp (-(2 * Real.pi - 0) * (Real.pi / 31536000)) :=
    Real.exp_pos _
  nlinarith [hcospos, hexp, hcon]

/-- Claim C6 (amended): GetFarfieldTemp implements the Kusuda-Achenbach damped
sinusoid T = T_avg - T_amp·exp(-z·√(π/(365days·α)))·
cos((2π/365days)·((t - phaseShift) - (z/2)·√(365days/(π·α)))) — the angular
frequency multiplies the whole phase- and depth-lag-shifted time — with
α = conductivity/(density·specificHeat), and its value at time t equals its
value one full year (365·86400 s) later. -/
theorem C6_farfieldTemp_amended (ground : BaseThermalPropertySet)
    (ff : FarfieldInfo) (ymax y t : ℝ) :
    getFarfieldTemp ground ff ymax y t =
      ff.averageGroundTemperature -
        ff.averageGroundTemperatureAmplitude *
          Real.exp (-(ymax - y) *
            Real.sqrt (Real.pi /
              ((365 * 86400) * baseThermalPropertySet_Diffusivity ground))) *
          Real.cos ((2 * Real.pi / (365 * 86400)) *
            ((t - ff.phaseShiftOfMinGroundTemp) -
              ((ymax - y) / 2) *
                Real.sqrt ((365 * 86400) /
                  (Real.pi * baseThermalPropertySet_Diffusivity ground)))) ∧
    getFarfieldTemp ground ff ymax y (t + 365 * 86400) =
      getFarfieldTemp ground ff ymax y t := by
  constructor
  · unfold getFarfieldTemp
    norm_num [secsInDay]
  · unfold getFarfieldTemp
    simp only
    congr 1
    congr 1
    rw [show (2 * Real.pi / (secsInDay * 365)) *
        ((t + 365 * 86400) - ff.phaseShiftOfMinGroundTemp -
          ((ymax - y) / 2) * Real.sqrt ((secsInDay * 365) /
            (Real.pi * baseThermalPropertySet_Diffusivity ground))) =
        (2 * Real.pi / (secsInDay * 365)) *
        (t - ff.phaseShiftOfMinGroundTemp -
          ((ymax - y) / 2) * Real.sqrt ((secsInDay * 365) /
            (Real.pi * baseThermalPropertySet_Diffusivity ground))) +
          2 * Real.pi
      from by
        have h : (secsInDay : ℝ) = 86400 := rfl
        field_simp [h]
        ring]
    exact Real.cos_add_two_pi _

end PlantPipingSystems
